import Mathlib

/-!
Verification of the core pipeline of the web-extraction service
(`tools.py`): chunking, schema inference plus batched row extraction
(`create_csv_file`), relevance filtering, map-reduce summarization and the
fan-out loop (`scrape_multiple_links`).  External effects (the headless
browser, the generation service, the filesystem) are modelled as oracle
parameters; text is modelled as a list of characters so that Python string
slicing becomes `List.take` and `List.drop`.
-/

namespace Tools

/-- Models Python `range(0, stop, step)` for a positive step: the indices
`0, step, 2*step, ...` below `stop`; there are `ceil(stop / step)` of them. -/
def pyRange (stop step : Nat) : List Nat :=
  (List.range ((stop + step - 1) / step)).map (fun k => k * step)

/-- The chunking idiom of `tools.py`:
`for i in range(0, len(text), batch_size): batch = text[i:i + batch_size]`.
Each slice `text[i:i+n]` is `(text.drop i).take n`. -/
def chunks (n : Nat) (s : List α) : List (List α) :=
  (pyRange s.length n).map (fun i => (s.drop i).take n)

/-- A row returned by the generation service: a JSON object, i.e. a mapping
from column-name keys to scalar values (association list, first key wins). -/
abbrev Row := List (String × String)

/-- Models `csv.DictWriter._dict_to_list` with the default `extrasaction` of
raising: a key outside `fieldnames` raises `ValueError`; a missing key is
filled with the default `restval` (`None`, serialized as the empty field). -/
def dict_to_list (fieldnames : List String) (row : Row) : Except Unit (List String) :=
  if row.all (fun kv => fieldnames.contains kv.1) then
    .ok (fieldnames.map (fun key => ((row.lookup key).getD "")))
  else
    .error ()

/-- Models `writer.writerows(all_rows)`: serialize the rows one after the other,
raising as soon as some row holds a key outside the schema. -/
def writerows (fieldnames : List String) : List Row → Except Unit (List (List String))
  | [] => .ok []
  | r :: rest =>
    match dict_to_list fieldnames r with
    | .error e => .error e
    | .ok line =>
      match writerows fieldnames rest with
      | .error e => .error e
      | .ok body => .ok (line :: body)

/-- Models `writer.writeheader()` followed by `writer.writerows(all_rows)`:
the header row then one serialized line per row. -/
def writeCsv (fieldnames : List String) (rows : List Row) :
    Except Unit (List (List String)) :=
  match writerows fieldnames rows with
  | .error e => .error e
  | .ok body => .ok (fieldnames :: body)

/-- The Stage-4 loop of `create_csv_file`, processing the chunk list in
order.  The oracle is called with the (1-based) batch number and the chunk
text; `none` models an exception raised by the generation call or by JSON
parsing of its answer (which aborts the whole job), `some []` models the
falsy `batch_data.get("rows")` (the chunk is skipped via `continue`), and
`some rows` extends the accumulator.  Returns the chunk texts actually sent
to the service and the final accumulator (or `none` on an exception). -/
def batchLoop (batch : Nat → List Char → Option (List Row)) :
    Nat → List (List Char) → List Row → List (List Char) × Option (List Row)
  | _, [], acc => ([], some acc)
  | i, c :: rest, acc =>
    match batch i c with
    | none => ([c], none)
    | some [] =>
      let r := batchLoop batch (i + 1) rest acc
      (c :: r.1, r.2)
    | some newRows =>
      let r := batchLoop batch (i + 1) rest (acc ++ newRows)
      (c :: r.1, r.2)

def STATIC_BASE_URL : String := "http://localhost:8000/output"

/-- Models `get_static_url`. -/
def get_static_url (filename : String) : String :=
  STATIC_BASE_URL ++ "/" ++ filename

/-- Observable outcome of one `create_csv_file` call. -/
structure CsvRun where
  /-- The value returned to the caller (`none` is Python `None`). -/
  ret : Option String
  /-- The serialized CSV content, when the file write completed. -/
  written : Option (List (List String))
  /-- The chunk texts sent to the generation service during Stage 4. -/
  batchInputs : List (List Char)
  deriving Repr, DecidableEq

/-- Models `create_csv_file(url, context)` with its effects abstracted:
`filename` stands for the timestamp-generated file name; `render` is the
Playwright navigation plus `extract_visible_text` (`none` = navigation
exception); `infer` is the Stage-3 structure-analysis call on the first
4000 characters of the truncated text (`none` = call exception or
malformed/incomplete JSON); `batch` is the Stage-4 per-chunk call.  Any
exception lands in the `except` handler, which returns `None`. -/
def create_csv_file (filename : String) (render : Option (List Char))
    (infer : List Char → Option (List String × List Row))
    (batch : Nat → List Char → Option (List Row)) : CsvRun :=
  match render with
  | none => ⟨none, none, []⟩
  | some text =>
    -- Stage 2: visible_text = visible_text[:max_tokens * 4] with max_tokens = 12000
    let visible_text := text.take (12000 * 4)
    -- Stage 3: schema inference on visible_text[:4000]
    match infer (visible_text.take 4000) with
    | none => ⟨none, none, []⟩
    | some (row_schema, rows) =>
      -- Stage 4: remaining_text = visible_text[4000:], batch_size = 4000
      let remaining_text := visible_text.drop 4000
      let r := batchLoop batch 1 (chunks 4000 remaining_text) rows
      match r.2 with
      | none => ⟨none, none, r.1⟩
      | some all_rows =>
        if all_rows.isEmpty then
          -- "[FINAL] No structured data found, returning None"
          ⟨none, none, r.1⟩
        else
          match writeCsv row_schema all_rows with
          | .error _ => ⟨none, none, r.1⟩
          | .ok content => ⟨some (get_static_url filename), some content, r.1⟩

/-- Observable outcome of the per-page summarization inside
`scrape_multiple_links`. -/
structure SummarizeRun where
  /-- Field `final_summary`; `none` models the `IndexError` that `summaries[0]`
  raises when the per-chunk loop produced no summaries. -/
  final : Option String
  /-- The inputs of the reduce ("combine partial summaries") generation
  calls that were issued, in order. -/
  reduceInputs : List (List String)
  deriving Repr, DecidableEq

/-- The map-reduce summarization of one page in `scrape_multiple_links`:
the per-chunk loop (`batch_size = 4000`) collects one map summary per
chunk; with more than one summary, a single reduce call combines them
(its prompt holds the partial summaries joined by newlines, in order);
otherwise `final_summary = summaries[0]`. -/
def summarizePage (mapCall : List Char → String) (reduceCall : List String → String)
    (visible_text : List Char) : SummarizeRun :=
  let summaries := (chunks 4000 visible_text).map mapCall
  if summaries.length > 1 then
    ⟨some (reduceCall summaries), [summaries]⟩
  else
    ⟨summaries.head?, []⟩

/-- One anchor discovered on the parent page:
`{url: el.href, text: el.textContent.trim(), title: el.title}`.
URLs are modelled as character lists, like the page text. -/
structure LinkCandidate where
  url : List Char
  text : String
  title : String
  deriving Repr, DecidableEq

/-- Python `s.startswith(pre)`. -/
def startswith (s pre : List Char) : Bool :=
  pre.isPrefixOf s

/-- The relevance filtering step of `scrape_multiple_links`:
`valid_links = [link for link in valid_links if link['url'] in relevant_urls]`. -/
def filterByRelevance (valid_links : List LinkCandidate)
    (relevant_urls : List (List Char)) : List LinkCandidate :=
  valid_links.filter (fun link => relevant_urls.contains link.url)

/-- Python list slicing `l[:stop]` with a possibly negative stop, as used in
`valid_links[:max_links-1]`. -/
def pySliceTo (l : List α) (stop : Int) : List α :=
  if stop < 0 then l.take (l.length - stop.natAbs) else l.take stop.toNat

/-- Observable outcome of the link-selection phase of
`scrape_multiple_links`. -/
structure SelectRun where
  /-- The pages that the fan-out loop will visit: the parent URL first. -/
  links : List (List Char)
  /-- The candidate lists sent to the relevance-ranking generation call. -/
  rankCalls : List (List LinkCandidate)
  /-- Value of `valid_links` after the (possible) relevance filtering, before the
  `[:max_links-1]` cap. -/
  candidates : List LinkCandidate
  deriving Repr, DecidableEq

/-- The link-selection phase of `scrape_multiple_links(url, max_links,
context)`: keep the candidates whose `href` starts with `http`; when the
context is non-empty (and some candidate survived) issue one ranking call
and keep the intersection with the returned URL list in original order;
cap at `max_links - 1`; visit the parent URL first.  The `ranker` oracle
returns the `relevant_urls` array of the generation call. -/
def selectLinks (url : List Char) (context : String) (max_links : Int)
    (links_with_text : List LinkCandidate)
    (ranker : List LinkCandidate → List (List Char)) : SelectRun :=
  let valid_links := links_with_text.filter (fun link => startswith link.url "http".toList)
  let step :=
    if context ≠ "" ∧ valid_links ≠ [] then
      (filterByRelevance valid_links (ranker valid_links), [valid_links])
    else
      (valid_links, [])
  let capped := pySliceTo step.1 (max_links - 1)
  { links := url :: capped.map (fun link => link.url),
    rankCalls := step.2,
    candidates := step.1 }

/-- Models the title sanitizer `"".join(c if c.isalnum() else "_" for c in title)`. -/
def safeTitle (title : List Char) : List Char :=
  title.map (fun c => if c.isAlphanum then c else '_')

/-- One entry written into the zip archive. -/
inductive ZipEntry
  /-- The `page_{i+1}_{safe_title}.json` entry: url, title, content,
  summary (the timestamp field is ignored). -/
  | jsonEntry (name : List Char) (url : String) (title : List Char)
      (content : List Char) (summary : String)
  /-- The `page_{i+1}_{safe_title}_summary.txt` entry. -/
  | summaryEntry (name : List Char) (summary : String)
  deriving Repr, DecidableEq

/-- What the renderer gives the fan-out loop for one link: the page title
and the extracted visible text. -/
structure PageRender where
  title : List Char
  visible_text : List Char
  deriving Repr, DecidableEq

/-- The body of the fan-out loop of `scrape_multiple_links` for the link at
(0-based) enumeration index `i`: navigate and extract text (`render link`,
`none` = navigation/scrape exception), summarize, then write the two
archive entries.  `none` means the iteration raised and the `except`
handler only logged: the link contributes nothing. -/
def processLink (mapCall : List Char → String) (reduceCall : List String → String)
    (render : String → Option PageRender) (i : Nat) (link : String) :
    Option (List ZipEntry) :=
  match render link with
  | none => none
  | some page =>
    let srun := summarizePage mapCall reduceCall page.visible_text
    match srun.final with
    | none => none
    | some final_summary =>
      let st := safeTitle page.title
      let prefix1 := ("page_" ++ toString (i + 1) ++ "_").toList ++ st
      some [.jsonEntry (prefix1 ++ ".json".toList) link page.title
              page.visible_text final_summary,
            .summaryEntry (prefix1 ++ "_summary.txt".toList) final_summary]

/-- The `for i, link in enumerate(links)` loop writing the zip archive:
a failing iteration is caught, logged and skipped; the remaining links are
still processed with their original enumeration indices. -/
def buildArchive (mapCall : List Char → String) (reduceCall : List String → String)
    (render : String → Option PageRender) : Nat → List String → List ZipEntry
  | _, [] => []
  | i, link :: rest =>
    (match processLink mapCall reduceCall render i link with
     | some entries => entries
     | none => []) ++ buildArchive mapCall reduceCall render (i + 1) rest

/-- The schema of the fixed synthetic generation service of the spec's
testable property for batch extraction. -/
def fixedSchema : List String := ["a", "b"]

/-- The single row that synthetic service returns on every call. -/
def fixedRow : Row := [("a", "1"), ("b", "2")]

-- THEOREMS-MARKER

theorem pyRange_zero (step : Nat) : pyRange 0 step = [] := by
  unfold pyRange
  rcases Nat.eq_zero_or_pos step with h | h
  · subst h; simp
  · have : (0 + step - 1) / step = 0 := by
      apply Nat.div_eq_of_lt; omega
    rw [this]; simp

theorem chunks_nil (n : Nat) : chunks n ([] : List α) = [] := by
  simp [chunks, pyRange_zero]

/-- Count of chunks: `ceil(length / n)`. -/
theorem chunks_length (n : Nat) (s : List α) :
    (chunks n s).length = (s.length + n - 1) / n := by
  simp [chunks, pyRange]

theorem ceil_div_succ {L n : Nat} (hn : 0 < n) (hL : 0 < L) :
    (L + n - 1) / n = (L - n + n - 1) / n + 1 := by
  have h1 : (L + n - 1) / n = (L - 1) / n + 1 := by
    have : L + n - 1 = (L - 1) + n := by omega
    rw [this, Nat.add_div_right _ hn]
  rcases le_or_lt L n with hle | hlt
  · have h2 : L - n = 0 := by omega
    have h3 : (L - 1) / n = 0 := Nat.div_eq_of_lt (by omega)
    rw [h1, h2, h3]
    have : (0 + n - 1) / n = 0 := Nat.div_eq_of_lt (by omega)
    rw [this]
  · have h2 : L - n + n - 1 = (L - n - 1) + n := by omega
    rw [h1, h2, Nat.add_div_right _ hn]
    have h3 : L - 1 = (L - n - 1) + n := by omega
    rw [h3, Nat.add_div_right _ hn]

/-- Unfolding law of the chunker: the first window, then the chunks of the
rest. -/
theorem chunks_cons {n : Nat} (hn : 0 < n) {s : List α} (hs : s ≠ []) :
    chunks n s = s.take n :: chunks n (s.drop n) := by
  have hL : 0 < s.length := List.length_pos.mpr hs
  unfold chunks pyRange
  rw [List.length_drop]
  rw [ceil_div_succ hn hL, List.range_succ_eq_map]
  simp only [List.map_cons, List.map_map, Nat.zero_mul, List.drop_zero]
  congr 1
  apply List.map_congr_left
  intro k _
  simp only [Function.comp_apply]
  rw [List.drop_drop]
  congr 1
  rw [Nat.succ_mul, Nat.mul_comm, Nat.add_comm]

theorem chunks_flatten {n : Nat} (hn : 0 < n) (s : List α) :
    (chunks n s).flatten = s := by
  generalize hl : s.length = L
  induction L using Nat.strong_induction_on generalizing s with
  | _ L ih =>
    by_cases hs : s = []
    · subst hs; simp [chunks_nil]
    · rw [chunks_cons hn hs]
      simp only [List.flatten_cons]
      rw [ih (s.drop n).length ?_ _ rfl]
      · exact List.take_append_drop n s
      · have hL : 0 < s.length := List.length_pos.mpr hs
        rw [List.length_drop]; omega

theorem chunks_length_le {n : Nat} (s : List α) :
    ∀ c ∈ chunks n s, c.length ≤ n := by
  intro c hc
  simp only [chunks, List.mem_map] at hc
  obtain ⟨i, _, rfl⟩ := hc
  exact List.length_take_le n _

theorem chunks_eq_nil_iff {n : Nat} (hn : 0 < n) (s : List α) :
    chunks n s = [] ↔ s = [] := by
  constructor
  · intro h
    by_contra hs
    rw [chunks_cons hn hs] at h
    exact List.cons_ne_nil _ _ h
  · intro h; subst h; exact chunks_nil n

/-- Every chunk except possibly the last has length exactly `n`. -/
theorem chunks_getD_length {n : Nat} (hn : 0 < n) (s : List α) :
    ∀ i, i + 1 < (chunks n s).length → ((chunks n s).getD i []).length = n := by
  generalize hl : s.length = L
  induction L using Nat.strong_induction_on generalizing s with
  | _ L ih =>
    intro i hi
    by_cases hs : s = []
    · subst hs; rw [chunks_nil] at hi; simp at hi
    · rw [chunks_cons hn hs] at hi ⊢
      cases i with
      | zero =>
        simp only [List.getD_cons_zero]
        rw [List.length_take]
        simp only [List.length_cons] at hi
        -- more than one chunk: the rest is nonempty, so s.length > n
        have hrest : chunks n (s.drop n) ≠ [] := by
          intro h0; rw [h0] at hi; simp at hi
        have hdrop : s.drop n ≠ [] := by
          intro h0
          exact hrest ((chunks_eq_nil_iff hn _).mpr h0)
        have : n < s.length := List.length_lt_of_drop_ne_nil hdrop
        omega
      | succ j =>
        simp only [List.getD_cons_succ]
        simp only [List.length_cons] at hi
        have hlen : (s.drop n).length < L := by
          have hL : 0 < s.length := List.length_pos.mpr hs
          rw [List.length_drop]; omega
        exact ih (s.drop n).length hlen _ rfl j (by omega)

theorem batchLoop_const_empty (batch : Nat → List Char → Option (List Row))
    (hbatch : ∀ j c, batch j c = some []) :
    ∀ (cs : List (List Char)) (i : Nat) (acc : List Row),
      batchLoop batch i cs acc = (cs, some acc) := by
  intro cs
  induction cs with
  | nil => intro i acc; rfl
  | cons c rest ih =>
    intro i acc
    simp only [batchLoop, hbatch, ih]

theorem flatten_replicate_singleton (n : Nat) (a : α) :
    (List.replicate n [a]).flatten = List.replicate n a := by
  induction n with
  | zero => rfl
  | succ k ih => simp [List.replicate_succ, ih]

/-- A generation service answering every batch call with the same nonempty
row list makes the Stage-4 loop append that list once per chunk, in chunk
order, to the accumulator. -/
theorem batchLoop_const (batch : Nat → List Char → Option (List Row))
    (rows : List Row) (hrows : rows ≠ [])
    (hbatch : ∀ j c, batch j c = some rows) :
    ∀ (cs : List (List Char)) (i : Nat) (acc : List Row),
      batchLoop batch i cs acc
        = (cs, some (acc ++ (List.replicate cs.length rows).flatten)) := by
  intro cs
  induction cs with
  | nil => intro i acc; simp [batchLoop]
  | cons c rest ih =>
    intro i acc
    cases rows with
    | nil => exact absurd rfl hrows
    | cons r rs =>
      simp only [batchLoop, hbatch, ih]
      simp [List.replicate_succ]

theorem batchLoop_none_of_batch_none (batch : Nat → List Char → Option (List Row))
    (hbatch : ∀ j c, batch j c = none) :
    ∀ (cs : List (List Char)) (i : Nat) (acc : List Row),
      (batchLoop batch i cs acc).2 = if cs = [] then some acc else none := by
  intro cs
  cases cs with
  | nil => intro i acc; simp [batchLoop]
  | cons c rest => intro i acc; simp [batchLoop, hbatch]

/-- C3: with a generation service that returns the fixed schema and the
fixed single row `fixedRow` on every call, the batch-extraction loop over a
remaining text of N chunks appends exactly N rows — one per chunk, in chunk
order, without deduplication. -/
theorem c3_fixed_service_appends_one_row_per_chunk
    (batch : Nat → List Char → Option (List Row))
    (remaining_text : List Char) (all_rows : List Row)
    (hbatch : ∀ j c, batch j c = some [fixedRow]) :
    batchLoop batch 1 (chunks 4000 remaining_text) all_rows
      = (chunks 4000 remaining_text,
         some (all_rows
           ++ List.replicate (chunks 4000 remaining_text).length fixedRow)) := by
  rw [batchLoop_const batch [fixedRow] (List.cons_ne_nil _ _) hbatch]
  rw [flatten_replicate_singleton]

/-- Concrete instance of C3: one chunk, one appended copy of the fixed row
after the seed row. -/
theorem c3_witness :
    batchLoop (fun _ _ => some [fixedRow]) 1 (chunks 4000 ['h', 'i']) [fixedRow]
      = ([['h', 'i']], some [fixedRow, fixedRow]) := by
  rw [c3_fixed_service_appends_one_row_per_chunk (fun _ _ => some [fixedRow])
    ['h', 'i'] [fixedRow] (fun _ _ => rfl)]
  decide

/-- C4: zero seed rows and a generation service returning zero rows for
every batch call: every chunk is still sent in order, the terminal state is
empty, no CSV is written, and the caller receives `None` rather than an
error. -/
theorem c4_zero_rows_terminal_empty
    (filename : String) (text : List Char)
    (infer : List Char → Option (List String × List Row))
    (batch : Nat → List Char → Option (List Row)) (schema : List String)
    (hinfer : infer ((text.take (12000 * 4)).take 4000) = some (schema, []))
    (hbatch : ∀ j c, batch j c = some []) :
    (create_csv_file filename (some text) infer batch).ret = none
    ∧ (create_csv_file filename (some text) infer batch).written = none
    ∧ (create_csv_file filename (some text) infer batch).batchInputs
        = chunks 4000 ((text.take (12000 * 4)).drop 4000) := by
  simp only [create_csv_file, hinfer, batchLoop_const_empty batch hbatch]
  simp

/-- Concrete instance of C4. -/
theorem c4_witness :
    (create_csv_file "structured_data.csv" (some ['h', 'i'])
        (fun _ => some (["a"], [])) (fun _ _ => some [])).ret = none
    ∧ (create_csv_file "structured_data.csv" (some ['h', 'i'])
        (fun _ => some (["a"], [])) (fun _ _ => some [])).written = none := by
  have h := c4_zero_rows_terminal_empty "structured_data.csv" ['h', 'i']
    (fun _ => some (["a"], [])) (fun _ _ => some []) ["a"] rfl (fun _ _ => rfl)
  exact ⟨h.1, h.2.1⟩

/-- C5: for every text and the fixed 4000-character window, the chunker
yields an ordered sequence of slices whose concatenation is the original
text (hence no overlap and no gaps), each slice at most 4000 characters,
and every slice except possibly the last exactly 4000 characters. -/
theorem c5_chunker_partition (s : List Char) :
    (chunks 4000 s).flatten = s
    ∧ (∀ c ∈ chunks 4000 s, c.length ≤ 4000)
    ∧ (∀ i, i + 1 < (chunks 4000 s).length
        → ((chunks 4000 s).getD i []).length = 4000) :=
  ⟨chunks_flatten (by norm_num) s, chunks_length_le s,
   chunks_getD_length (by norm_num) s⟩

/-- Concrete instance of C5 on a 4001-character text: reassembly, and the
non-final chunk has length exactly 4000. -/
theorem c5_witness :
    (chunks 4000 (List.replicate 4001 'a')).flatten = List.replicate 4001 'a'
    ∧ ((chunks 4000 (List.replicate 4001 'a')).getD 0 []).length = 4000 := by
  refine ⟨(c5_chunker_partition (List.replicate 4001 'a')).1, ?_⟩
  apply (c5_chunker_partition (List.replicate 4001 'a')).2.2 0
  rw [chunks_length]
  norm_num

theorem dict_to_list_ok (fieldnames : List String) (r : Row)
    (h : ∀ kv ∈ r, fieldnames.contains kv.1) :
    dict_to_list fieldnames r
      = .ok (fieldnames.map (fun key => ((r.lookup key).getD ""))) := by
  unfold dict_to_list
  rw [if_pos]
  rw [List.all_eq_true]
  exact h

theorem dict_to_list_error (fieldnames : List String) (r : Row)
    (kv : String × String) (hkv : kv ∈ r)
    (hbad : ¬ fieldnames.contains kv.1) :
    dict_to_list fieldnames r = .error () := by
  unfold dict_to_list
  rw [if_neg]
  intro hall
  rw [List.all_eq_true] at hall
  exact hbad (hall kv hkv)

theorem writerows_ok (fieldnames : List String) :
    ∀ rows : List Row, (∀ r ∈ rows, ∀ kv ∈ r, fieldnames.contains kv.1) →
      writerows fieldnames rows
        = .ok (rows.map (fun r => fieldnames.map (fun key => ((r.lookup key).getD "")))) := by
  intro rows
  induction rows with
  | nil => intro _; rfl
  | cons r rest ih =>
    intro h
    have hr := dict_to_list_ok fieldnames r (h r (List.mem_cons_self r rest))
    have hrest := ih (fun r2 h2 kv hkv => h r2 (List.mem_cons_of_mem r h2) kv hkv)
    simp only [writerows, hr, hrest, List.map_cons]

theorem writerows_error (fieldnames : List String) :
    ∀ rows : List Row,
      (∃ r ∈ rows, ∃ kv ∈ r, ¬ fieldnames.contains kv.1) →
      writerows fieldnames rows = .error () := by
  intro rows
  induction rows with
  | nil => intro h; obtain ⟨r, hr, _⟩ := h; exact absurd hr (List.not_mem_nil r)
  | cons r rest ih =>
    intro h
    obtain ⟨r0, hr0, kv, hkv, hbad⟩ := h
    rcases List.mem_cons.mp hr0 with heq | hmem
    · subst heq
      simp only [writerows, dict_to_list_error fieldnames r0 kv hkv hbad]
    · cases hd : dict_to_list fieldnames r with
      | error e => cases e; simp only [writerows, hd]
      | ok line =>
        simp only [writerows, hd, ih ⟨r0, hmem, kv, hkv, hbad⟩]

/-- C1 counterexample: on the normal empty-result terminal state
`create_csv_file` returns the very same value (`None`) that it returns on a
hard render failure — the two outcomes are not distinguishable. -/
theorem c1_counterexample :
    (create_csv_file "structured_data.csv" (some ['h', 'i'])
        (fun _ => some (["a"], [])) (fun _ _ => some [])).ret
      = (create_csv_file "structured_data.csv" none
        (fun _ => some (["a"], [])) (fun _ _ => some [])).ret
    ∧ (create_csv_file "structured_data.csv" (some ['h', 'i'])
        (fun _ => some (["a"], [])) (fun _ _ => some [])).ret = none := by
  decide

/-- C1 (amended): the empty-result terminal state yields `None`, which is
the same caller-visible value produced by each hard failure — render
failure, schema-inference failure, and a generation-call exception during
batching; only a successful extraction is distinguishable. -/
theorem c1_empty_and_failure_both_return_none
    (filename : String) (text : List Char)
    (infer : List Char → Option (List String × List Row))
    (batch : Nat → List Char → Option (List Row)) (schema : List String)
    (hinfer : infer ((text.take (12000 * 4)).take 4000) = some (schema, []))
    (hbatch : ∀ j c, batch j c = some []) :
    (create_csv_file filename (some text) infer batch).ret = none
    ∧ (create_csv_file filename none infer batch).ret = none
    ∧ (create_csv_file filename (some text) (fun _ => none) batch).ret = none
    ∧ (create_csv_file filename (some text) infer (fun _ _ => none)).ret = none := by
  refine ⟨?_, rfl, rfl, ?_⟩
  · simp only [create_csv_file, hinfer, batchLoop_const_empty batch hbatch]
    simp
  · simp only [create_csv_file, hinfer]
    rw [batchLoop_none_of_batch_none (fun _ _ => none) (fun _ _ => rfl)]
    by_cases hc : chunks 4000 ((text.take (12000 * 4)).drop 4000) = []
    · simp [hc]
    · simp [hc]

/-- Concrete instance of the amended C1. -/
theorem c1_witness :
    (create_csv_file "structured_data.csv" (some ['h', 'i'])
        (fun _ => some (["a"], [])) (fun _ _ => some [])).ret = none
    ∧ (create_csv_file "structured_data.csv" none
        (fun _ => some (["a"], [])) (fun _ _ => some [])).ret = none := by
  have h := c1_empty_and_failure_both_return_none "structured_data.csv" ['h', 'i']
    (fun _ => some (["a"], [])) (fun _ _ => some []) ["a"] rfl (fun _ _ => rfl)
  exact ⟨h.1, h.2.1⟩

set_option maxRecDepth 100000 in
/-- C2 counterexample: a batch response whose single row uses the key `c`,
absent from the established schema `a, b`, is accepted into the accumulated
row set — yet the job does not complete successfully: serialization raises
and the call returns `None` with no CSV written. -/
theorem c2_counterexample :
    (batchLoop (fun _ _ => some [[("c", "v")]]) 1
        (chunks 4000 (((List.replicate 4001 'x').take (12000 * 4)).drop 4000)) []).2
      = some [[("c", "v")]]
    ∧ (create_csv_file "structured_data.csv" (some (List.replicate 4001 'x'))
        (fun _ => some (fixedSchema, []))
        (fun _ _ => some [[("c", "v")]])).ret = none
    ∧ (create_csv_file "structured_data.csv" (some (List.replicate 4001 'x'))
        (fun _ => some (fixedSchema, []))
        (fun _ _ => some [[("c", "v")]])).written = none := by
  decide

/-- C2 (amended): rows from a batch response are accepted into the
accumulated row set with no structural validation; but the job completes
successfully only when every key of every row lies in the established
schema (missing keys are filled with the empty default) — a row holding a
key outside the schema makes the CSV write raise, so the call returns
`None` instead. -/
theorem c2_rows_accepted_but_extra_key_fails_serialization
    (filename : String) (text : List Char)
    (infer : List Char → Option (List String × List Row))
    (batch : Nat → List Char → Option (List Row)) (schema : List String)
    (rows : List Row) (c0 : List Char)
    (hinfer : infer ((text.take (12000 * 4)).take 4000) = some (schema, []))
    (hchunks : chunks 4000 ((text.take (12000 * 4)).drop 4000) = [c0])
    (hbatch : ∀ j c, batch j c = some rows) (hrows : rows ≠ []) :
    (batchLoop batch 1 (chunks 4000 ((text.take (12000 * 4)).drop 4000)) []).2
      = some rows
    ∧ ((∃ r ∈ rows, ∃ kv ∈ r, ¬ schema.contains kv.1) →
        (create_csv_file filename (some text) infer batch).ret = none
        ∧ (create_csv_file filename (some text) infer batch).written = none)
    ∧ ((∀ r ∈ rows, ∀ kv ∈ r, schema.contains kv.1) →
        (create_csv_file filename (some text) infer batch).ret
            = some (get_static_url filename)
        ∧ (create_csv_file filename (some text) infer batch).written
            = some (schema :: rows.map
                (fun r => schema.map (fun key => ((r.lookup key).getD ""))))) := by
  have hloop : batchLoop batch 1 (chunks 4000 ((text.take (12000 * 4)).drop 4000)) []
      = ([c0], some rows) := by
    rw [hchunks, batchLoop_const batch rows hrows hbatch]
    simp
  refine ⟨by rw [hloop], ?_, ?_⟩
  · intro hbad
    simp only [create_csv_file, hinfer, hloop]
    rw [writeCsv, writerows_error schema rows hbad]
    simp [List.isEmpty_iff, hrows]
  · intro hgood
    simp only [create_csv_file, hinfer, hloop]
    rw [writeCsv, writerows_ok schema rows hgood]
    simp [List.isEmpty_iff, hrows]

/-- Concrete instance of the amended C2: an extra-key row aborts the job;
a missing-key row serializes with an empty fill and the job completes. -/
theorem c2_witness :
    (create_csv_file "structured_data.csv" (some (List.replicate 4001 'x'))
        (fun _ => some (fixedSchema, [])) (fun _ _ => some [[("c", "v")]])).ret = none
    ∧ (create_csv_file "structured_data.csv" (some (List.replicate 4001 'x'))
        (fun _ => some (fixedSchema, [])) (fun _ _ => some [[("a", "1")]])).written
      = some [["a", "b"], ["1", ""]] := by
  have hchunks : chunks 4000 (((List.replicate 4001 'x').take (12000 * 4)).drop 4000)
      = [['x']] := by
    rw [List.take_replicate]
    norm_num
    decide
  have h1 := c2_rows_accepted_but_extra_key_fails_serialization "structured_data.csv"
    (List.replicate 4001 'x') (fun _ => some (fixedSchema, []))
    (fun _ _ => some [[("c", "v")]]) fixedSchema [[("c", "v")]] ['x']
    rfl hchunks (fun _ _ => rfl) (by decide)
  have h2 := c2_rows_accepted_but_extra_key_fails_serialization "structured_data.csv"
    (List.replicate 4001 'x') (fun _ => some (fixedSchema, []))
    (fun _ _ => some [[("a", "1")]]) fixedSchema [[("a", "1")]] ['x']
    rfl hchunks (fun _ _ => rfl) (by decide)
  refine ⟨(h1.2.1 ?_).1, ?_⟩
  · exact ⟨[("c", "v")], by decide, ("c", "v"), by decide, by decide⟩
  · rw [(h2.2.2 ?_).2]
    · decide
    · intro r hr kv hkv
      simp only [List.mem_singleton] at hr
      subst hr
      simp only [List.mem_singleton] at hkv
      subst hkv
      decide

/-- C6: a single-chunk page takes its map-step summary unchanged as the
final summary and issues no reduce call; a page of more than one chunk
issues exactly one reduce call whose input is the list of all partial
summaries in original chunk order. -/
theorem c6_map_reduce_summary (mapCall : List Char → String)
    (reduceCall : List String → String) (text : List Char) :
    ((chunks 4000 text).length = 1 →
      (summarizePage mapCall reduceCall text).final
          = some (mapCall ((chunks 4000 text).getD 0 []))
        ∧ (summarizePage mapCall reduceCall text).reduceInputs = [])
    ∧ (1 < (chunks 4000 text).length →
        (summarizePage mapCall reduceCall text).reduceInputs
            = [(chunks 4000 text).map mapCall]
        ∧ (summarizePage mapCall reduceCall text).final
            = some (reduceCall ((chunks 4000 text).map mapCall))) := by
  constructor
  · intro h1
    match hcs : chunks 4000 text with
    | [] => rw [hcs] at h1; simp at h1
    | [c] => simp [summarizePage, hcs]
    | a :: b :: t => rw [hcs] at h1; simp at h1
  · intro h2
    have hlen : 1 < ((chunks 4000 text).map mapCall).length := by
      rw [List.length_map]; exact h2
    simp only [summarizePage]
    rw [if_pos hlen]
    exact ⟨rfl, rfl⟩

/-- Concrete instances of C6: a 2-character page (one chunk) and a
4001-character page (two chunks). -/
theorem c6_witness :
    ((summarizePage (fun _ => "S") (fun _ => "R") ['h', 'i']).final = some "S"
      ∧ (summarizePage (fun _ => "S") (fun _ => "R") ['h', 'i']).reduceInputs = [])
    ∧ (summarizePage (fun _ => "S") (fun _ => "R")
        (List.replicate 4001 'a')).reduceInputs = [["S", "S"]] := by
  constructor
  · have h := (c6_map_reduce_summary (fun _ => "S") (fun _ => "R") ['h', 'i']).1
      (by decide)
    exact ⟨h.1, h.2⟩
  · have hlen : 1 < (chunks 4000 (List.replicate 4001 'a')).length := by
      rw [chunks_length]; norm_num
    have h := (c6_map_reduce_summary (fun _ => "S") (fun _ => "R")
      (List.replicate 4001 'a')).2 hlen
    rw [h.1]
    have hmap : (chunks 4000 (List.replicate 4001 'a')).map (fun _ => "S")
        = List.replicate (chunks 4000 (List.replicate 4001 'a')).length "S" :=
      List.map_const' _ _
    rw [hmap, chunks_length]
    norm_num
    decide

/-- C7: with a non-empty context, the relevance-filtered candidate list is
the subsequence of the original valid (http) candidate list whose URLs
occur in the URL set returned by the ranking call: a narrowing intersection
that keeps the original discovery order and ignores the order (and
multiplicity) of the ranker's answer. -/
theorem c7_relevance_filter_order (url : List Char) (context : String)
    (max_links : Int) (links_with_text : List LinkCandidate)
    (ranker : List LinkCandidate → List (List Char))
    (hc : context ≠ "") :
    ((selectLinks url context max_links links_with_text ranker).candidates).Sublist
        (links_with_text.filter (fun link => startswith link.url "http".toList))
    ∧ (∀ l, l ∈ (selectLinks url context max_links links_with_text ranker).candidates
        ↔ l ∈ links_with_text.filter (fun link => startswith link.url "http".toList)
          ∧ l.url ∈ ranker (links_with_text.filter
              (fun link => startswith link.url "http".toList)))
    ∧ (∀ ranker2 : List LinkCandidate → List (List Char),
        (∀ u, u ∈ ranker (links_with_text.filter
              (fun link => startswith link.url "http".toList))
          ↔ u ∈ ranker2 (links_with_text.filter
              (fun link => startswith link.url "http".toList))) →
        (selectLinks url context max_links links_with_text ranker).candidates
          = (selectLinks url context max_links links_with_text ranker2).candidates) := by
  by_cases hv : links_with_text.filter (fun link => startswith link.url "http".toList) = []
  · simp only [selectLinks]
    rw [hv]
    simp [filterByRelevance]
  · have hcond : context ≠ ""
        ∧ links_with_text.filter (fun link => startswith link.url "http".toList) ≠ [] :=
      ⟨hc, hv⟩
    simp only [selectLinks, if_pos hcond]
    refine ⟨List.filter_sublist _, ?_, ?_⟩
    · intro l
      simp only [filterByRelevance, List.mem_filter, List.elem_iff]
    · intro ranker2 hsame
      simp only [filterByRelevance]
      apply List.filter_congr
      intro l _
      have hiff := hsame l.url
      by_cases hmem : l.url ∈ ranker (links_with_text.filter
          (fun link => startswith link.url "http".toList))
      · have h1 : (ranker (links_with_text.filter
            (fun link => startswith link.url "http".toList))).contains l.url = true :=
          List.elem_iff.mpr hmem
        have h2 : (ranker2 (links_with_text.filter
            (fun link => startswith link.url "http".toList))).contains l.url = true :=
          List.elem_iff.mpr (hiff.mp hmem)
        rw [h1, h2]
      · have h1 : (ranker (links_with_text.filter
            (fun link => startswith link.url "http".toList))).contains l.url = false := by
          rw [Bool.eq_false_iff]
          intro hx
          exact hmem (List.elem_iff.mp hx)
        have h2 : (ranker2 (links_with_text.filter
            (fun link => startswith link.url "http".toList))).contains l.url = false := by
          rw [Bool.eq_false_iff]
          intro hx
          exact hmem (hiff.mpr (List.elem_iff.mp hx))
        rw [h1, h2]

/-- Concrete instance of C7: the ranker answers in reversed order with an
unknown URL added; the filter keeps discovery order and just narrows. -/
theorem c7_witness :
    (selectLinks "http://p".toList "ctx" 5
        [⟨"http://1".toList, "", ""⟩, ⟨"http://2".toList, "", ""⟩,
         ⟨"http://3".toList, "", ""⟩]
        (fun _ => ["http://3".toList, "http://1".toList,
          "http://z".toList])).candidates.Sublist
      [⟨"http://1".toList, "", ""⟩, ⟨"http://2".toList, "", ""⟩,
       ⟨"http://3".toList, "", ""⟩]
    ∧ (⟨"http://1".toList, "", ""⟩ : LinkCandidate)
        ∈ (selectLinks "http://p".toList "ctx" 5
          [⟨"http://1".toList, "", ""⟩, ⟨"http://2".toList, "", ""⟩,
           ⟨"http://3".toList, "", ""⟩]
          (fun _ => ["http://3".toList, "http://1".toList,
            "http://z".toList])).candidates
    ∧ (⟨"http://2".toList, "", ""⟩ : LinkCandidate)
        ∉ (selectLinks "http://p".toList "ctx" 5
          [⟨"http://1".toList, "", ""⟩, ⟨"http://2".toList, "", ""⟩,
           ⟨"http://3".toList, "", ""⟩]
          (fun _ => ["http://3".toList, "http://1".toList,
            "http://z".toList])).candidates := by
  have h := c7_relevance_filter_order "http://p".toList "ctx" 5
    [⟨"http://1".toList, "", ""⟩, ⟨"http://2".toList, "", ""⟩,
     ⟨"http://3".toList, "", ""⟩]
    (fun _ => ["http://3".toList, "http://1".toList, "http://z".toList])
    (by decide)
  refine ⟨?_, ?_, ?_⟩
  · have hfilter : List.filter (fun link => startswith link.url "http".toList)
        [(⟨"http://1".toList, "", ""⟩ : LinkCandidate), ⟨"http://2".toList, "", ""⟩,
         ⟨"http://3".toList, "", ""⟩]
        = [⟨"http://1".toList, "", ""⟩, ⟨"http://2".toList, "", ""⟩,
           ⟨"http://3".toList, "", ""⟩] := by decide
    have hs := h.1
    rw [hfilter] at hs
    exact hs
  · exact (h.2.1 ⟨"http://1".toList, "", ""⟩).mpr (by constructor <;> decide)
  · intro hx
    have hmem := (h.2.1 ⟨"http://2".toList, "", ""⟩).mp hx
    revert hmem
    decide

/-- C8: with an empty context no ranking generation call is issued, and the
visited links are the parent URL followed by the first `max_links - 1`
valid http(s) candidates in original discovery order. -/
theorem c8_empty_context_no_ranking (url : List Char) (max_links : Int)
    (links_with_text : List LinkCandidate)
    (ranker : List LinkCandidate → List (List Char))
    (hm : 1 ≤ max_links) :
    (selectLinks url "" max_links links_with_text ranker).rankCalls = []
    ∧ (selectLinks url "" max_links links_with_text ranker).links
      = url :: ((links_with_text.filter
            (fun link => startswith link.url "http".toList)).take
            (max_links - 1).toNat).map (fun link => link.url) := by
  have hneg : ¬ (max_links - 1 < 0) := by omega
  simp only [selectLinks, pySliceTo, if_neg hneg]
  simp

/-- Concrete instance of C8 (the spec scenario): `max_links = 3`, empty
context, 5 discovered http links — exactly two additional links beyond the
parent, in discovery order, and no ranking call. -/
theorem c8_witness :
    (selectLinks "http://p".toList "" 3
        [⟨"http://1".toList, "", ""⟩, ⟨"http://2".toList, "", ""⟩,
         ⟨"http://3".toList, "", ""⟩, ⟨"http://4".toList, "", ""⟩,
         ⟨"http://5".toList, "", ""⟩]
        (fun _ => [])).rankCalls = []
    ∧ (selectLinks "http://p".toList "" 3
        [⟨"http://1".toList, "", ""⟩, ⟨"http://2".toList, "", ""⟩,
         ⟨"http://3".toList, "", ""⟩, ⟨"http://4".toList, "", ""⟩,
         ⟨"http://5".toList, "", ""⟩]
        (fun _ => [])).links
      = ["http://p".toList, "http://1".toList, "http://2".toList] := by
  have h := c8_empty_context_no_ranking "http://p".toList 3
    [⟨"http://1".toList, "", ""⟩, ⟨"http://2".toList, "", ""⟩,
     ⟨"http://3".toList, "", ""⟩, ⟨"http://4".toList, "", ""⟩,
     ⟨"http://5".toList, "", ""⟩]
    (fun _ => []) (by norm_num)
  refine ⟨h.1, ?_⟩
  rw [h.2]
  decide

/-- Splitting the fan-out loop around any point: later links are processed
with their original enumeration indices. -/
theorem buildArchive_append (mapCall : List Char → String)
    (reduceCall : List String → String) (render : String → Option PageRender) :
    ∀ (xs ys : List String) (i : Nat),
      buildArchive mapCall reduceCall render i (xs ++ ys)
        = buildArchive mapCall reduceCall render i xs
          ++ buildArchive mapCall reduceCall render (i + xs.length) ys := by
  intro xs
  induction xs with
  | nil => intro ys i; simp [buildArchive]
  | cons x rest ih =>
    intro ys i
    simp only [List.cons_append, buildArchive, List.append_eq, ih,
      List.append_assoc, List.length_cons]
    have harith : i + 1 + rest.length = i + (rest.length + 1) := by omega
    rw [harith]

/-- C9: an exception while processing one link of the fan-out is caught;
that link contributes no archive entries and the loop continues with the
remaining links (the archive splits around the failed link, later links
keeping their enumeration indices). -/
theorem c9_fanout_partial_failure (mapCall : List Char → String)
    (reduceCall : List String → String) (render : String → Option PageRender)
    (i : Nat) (pre : List String) (bad : String) (post : List String)
    (hbad : processLink mapCall reduceCall render (i + pre.length) bad = none) :
    buildArchive mapCall reduceCall render i (pre ++ bad :: post)
      = buildArchive mapCall reduceCall render i pre
        ++ buildArchive mapCall reduceCall render (i + pre.length + 1) post := by
  rw [buildArchive_append mapCall reduceCall render pre (bad :: post) i]
  simp only [buildArchive, hbad, List.nil_append]

/-- Concrete instance of C9: the middle link fails to render; the archive
is the concatenation of the work on the surrounding links. -/
theorem c9_witness :
    buildArchive (fun _ => "S") (fun _ => "R")
        (fun s => if s = "bad" then none else some ⟨['t'], ['x']⟩) 0
        ["http://a", "bad", "http://b"]
      = buildArchive (fun _ => "S") (fun _ => "R")
          (fun s => if s = "bad" then none else some ⟨['t'], ['x']⟩) 0 ["http://a"]
        ++ buildArchive (fun _ => "S") (fun _ => "R")
          (fun s => if s = "bad" then none else some ⟨['t'], ['x']⟩) 2 ["http://b"] :=
  c9_fanout_partial_failure (fun _ => "S") (fun _ => "R")
    (fun s => if s = "bad" then none else some ⟨['t'], ['x']⟩)
    0 ["http://a"] "bad" ["http://b"] (by decide)

/-- C10: a fan-out link whose extracted visible text is empty produces an
empty list of partial summaries, so `summaries[0]` is out of bounds: the
link is treated as failed and yields no archive entries even though
rendering succeeded; the access is in bounds exactly when the visible text
is non-empty. -/
theorem c10_empty_text_summaries_out_of_bounds
    (mapCall : List Char → String) (reduceCall : List String → String)
    (render : String → Option PageRender) (i : Nat) (link : String)
    (title : List Char) (text : List Char) :
    ((chunks 4000 text).map mapCall = [] ↔ text = [])
    ∧ ((summarizePage mapCall reduceCall text).final.isSome ↔ text ≠ [])
    ∧ (render link = some ⟨title, []⟩ →
        processLink mapCall reduceCall render i link = none) := by
  have hmapnil : ∀ t : List Char, (chunks 4000 t).map mapCall = [] ↔ t = [] := by
    intro t
    rw [List.map_eq_nil_iff]
    exact chunks_eq_nil_iff (by norm_num) t
  have hfinal : ∀ t : List Char,
      (summarizePage mapCall reduceCall t).final.isSome ↔ t ≠ [] := by
    intro t
    by_cases ht : t = []
    · subst ht
      simp [summarizePage, chunks_nil]
    · simp only [ne_eq, ht, not_false_iff, iff_true]
      have hne : (chunks 4000 t).map mapCall ≠ [] :=
        fun h0 => ht ((hmapnil t).mp h0)
      obtain ⟨a, as, hcs⟩ : ∃ a as, (chunks 4000 t).map mapCall = a :: as := by
        cases hx : (chunks 4000 t).map mapCall with
        | nil => exact absurd hx hne
        | cons a as => exact ⟨a, as, rfl⟩
      simp only [summarizePage, hcs]
      by_cases hlen : (a :: as).length > 1
      · rw [if_pos hlen]; rfl
      · rw [if_neg hlen]; rfl
  refine ⟨hmapnil text, hfinal text, ?_⟩
  intro hrender
  unfold processLink
  rw [hrender]
  have h0 : (summarizePage mapCall reduceCall ([] : List Char)).final = none := by
    simp [summarizePage, chunks_nil]
  simp only [h0]

/-- Concrete instance of C10: rendering succeeds with empty visible text
and the link is dropped; a non-empty text keeps `summaries[0]` in bounds. -/
theorem c10_witness :
    processLink (fun _ => "S") (fun _ => "R")
        (fun _ => some ⟨['t'], []⟩) 0 "http://x" = none
    ∧ (summarizePage (fun _ => "S") (fun _ => "R") ['h']).final.isSome = true := by
  have h := c10_empty_text_summaries_out_of_bounds (fun _ => "S") (fun _ => "R")
    (fun _ => some ⟨['t'], []⟩) 0 "http://x" ['t'] ['h']
  exact ⟨h.2.2 rfl, (h.2.1).mpr (by decide)⟩

end Tools
